import Mathlib

/-!
Verification of the original logic of a browser GraphQL IDE (src/App.js):
the transport-dispatching fetcher (subscription vs. stateless routing, channel
error normalization, degraded raw-text results) and the cursor-to-operation
resolver (span containment over top-level definitions).

JavaScript is shallowly embedded: exceptions become Except, the library parse
call is a parameter of type String to Except, machine behavior such as operator
precedence inside the close-event branch is reproduced exactly as the source
has it, and JS truthiness of strings and objects is made explicit.
-/

namespace Explorer

/-- A JS Error value; only its message is observed by this code. -/
structure JSError where
  message : String
deriving DecidableEq, Repr

/-- GraphQL operation types, the values of a parsed operation node field
named operation in graphql-js. -/
inductive OperationType where
  | query
  | mutation
  | subscription
deriving DecidableEq, Repr

/-- The string graphql-js stores in the operation field of an operation
definition node. -/
def operationTypeString : OperationType → String
  | .query => "query"
  | .mutation => "mutation"
  | .subscription => "subscription"

/-- Source location of a definition node: character offsets into the document
text. The source calls the upper bound end; Lean reserves that word, so it is
stop here. -/
structure Loc where
  start : Nat
  stop : Nat
deriving DecidableEq, Repr

/-- A top-level definition node of a parsed GraphQL document, carrying exactly
the fields src/App.js reads: kind, operation (operations only), name and loc.
Kinds other than OperationDefinition and FragmentDefinition fall into
otherDefinition, matching the final ternary branches at lines 159 and 161. -/
inductive Definition where
  | operationDefinition (operation : OperationType) (name : Option String) (loc : Option Loc)
  | fragmentDefinition (name : Option String) (loc : Option Loc)
  | otherDefinition (loc : Option Loc)
deriving DecidableEq, Repr

/-- A parsed document is its list of top-level definitions, in document
order. -/
abbrev Document := List Definition

/-- The loc field shared by every definition node. -/
def locOf : Definition → Option Loc
  | .operationDefinition _ _ lc => lc
  | .fragmentDefinition _ lc => lc
  | .otherDefinition lc => lc

/-- The resolved operation that graphql-js getOperationAST returns: an
operation definition node. -/
structure OperationDef where
  operation : OperationType
  name : Option String
  loc : Option Loc
deriving DecidableEq, Repr

/-- The operation definitions of a document, in document order. -/
def opDefs : Document → List OperationDef
  | [] => []
  | .operationDefinition op nm lc :: rest => ⟨op, nm, lc⟩ :: opDefs rest
  | .fragmentDefinition _ _ :: rest => opDefs rest
  | .otherDefinition _ :: rest => opDefs rest

/-- Modelled from graphql-js getOperationAST, the library routine called at
src/App.js line 20 (that library is not part of this repository): walk the
definitions; with no operationName, remember the first operation definition
and bail out with null upon meeting a second one; with an operationName,
return the operation definition whose name matches it, the accumulator staying
untouched on that path. The accumulator argument mirrors the mutable local
named operation. -/
def getOperationASTAux : Option String → List Definition → Option OperationDef →
    Option OperationDef
  | _, [], acc => acc
  | none, .operationDefinition op nm lc :: rest, acc =>
      if acc.isSome then none else getOperationASTAux none rest (some ⟨op, nm, lc⟩)
  | some n, .operationDefinition op nm lc :: rest, acc =>
      if nm = some n then some ⟨op, nm, lc⟩ else getOperationASTAux (some n) rest acc
  | opName, .fragmentDefinition _ _ :: rest, acc => getOperationASTAux opName rest acc
  | opName, .otherDefinition _ :: rest, acc => getOperationASTAux opName rest acc

/-- Entry point of the resolution: start with a null accumulator. -/
def getOperationAST (doc : Document) (operationName : Option String) : Option OperationDef :=
  getOperationASTAux operationName doc none

/-- Errors thrown by the library parse call; parse either throws or returns a
document node, never null. -/
inductive ParseErr where
  | syntaxError (message : String)
deriving DecidableEq, Repr

/-- The request record handed to the fetcher (graphiql FetcherParams):
query text, optional operation name, optional variables blob (the source field
is named variables, a word Lean reserves, hence vars). -/
structure FetcherParams where
  query : String
  operationName : Option String
  vars : Option String
deriving DecidableEq, Repr

/-- The truthiness test the source applies to the resolved operation:
operation and operation.operation equal to the string subscription. A null
resolution is falsy. -/
def resolvesSubscription (node : Document) (operationName : Option String) : Bool :=
  match getOperationAST node operationName with
  | some operation => decide (operation.operation = OperationType.subscription)
  | none => false

/-- src/App.js lines 18 to 22: parse the query (which may throw, modelled as
Except.error), resolve the operation, and test whether it is a subscription.
The JS function returns null-or-boolean; it is only ever used as a condition,
so the embedding returns the corresponding Bool. -/
def isSubscription (parseFn : String → Except ParseErr Document)
    (params : FetcherParams) : Except ParseErr Bool :=
  match parseFn params.query with
  | .error e => .error e
  | .ok node => .ok (resolvesSubscription node params.operationName)

/-- What a call of the fetcher does before any asynchronous work: throw the
parse exception, hand the request to the shared duplex (websocket) client, or
issue the stateless HTTP POST. -/
inductive FetchOutcome where
  | thrown (e : ParseErr)
  | subscription (params : FetcherParams)
  | stateless (params : FetcherParams)
deriving DecidableEq, Repr

/-- src/App.js lines 36 to 85: the dispatch decision of the fetcher. A parse
failure inside isSubscription propagates out of the fetcher before either
transport is touched; a truthy isSubscription returns the subscribable backed
by the duplex channel; otherwise the request goes to fetch. -/
def fetcher (parseFn : String → Except ParseErr Document)
    (params : FetcherParams) : FetchOutcome :=
  match isSubscription parseFn params with
  | .error e => .thrown e
  | .ok true => .subscription params
  | .ok false => .stateless params

/-- Which transport a fetch outcome used: none when the call threw, true for
the duplex channel, false for the stateless transport. -/
def transportClassOf : FetchOutcome → Option Bool
  | .thrown _ => none
  | .subscription _ => some true
  | .stateless _ => some false

/-- One server-reported error object of a graphql-ws error payload; only its
message field is read (line 58). -/
structure ServerError where
  message : String
deriving DecidableEq, Repr

/-- The three shapes a channel-level failure can take at the error callback of
src/App.js line 46: an Error instance, a CloseEvent with code and reason, or
an array of server error objects. -/
inductive ChannelFailure where
  | native (e : JSError)
  | closeEvent (code : Nat) (reason : String)
  | multi (errors : List ServerError)
deriving DecidableEq, Repr

/-- JS truthiness of a string: every string except the empty one is truthy. -/
def jsStringTruthy (s : String) : Bool := decide (s ≠ "")

/-- src/App.js lines 46 to 59: normalization of a channel failure before it
reaches the sink. The close-event branch reproduces the JS operator
precedence of line 52 exactly: plus binds tighter than the conditional, so
the condition is the template literal concatenated with the reason, and the
whole Error message is the conditional result alone. -/
def normalizeChannelError : ChannelFailure → JSError
  | .native e => e
  | .closeEvent code reason =>
      ⟨if jsStringTruthy ("Socket closed with event " ++ toString code ++ reason)
        then ": " ++ reason
        else ""⟩
  | .multi errors => ⟨String.intercalate ", " (errors.map ServerError.message)⟩

/-- Whether the second list is a prefix of the first. -/
def listStartsWith : List Char → List Char → Bool
  | _, [] => true
  | [], _ :: _ => false
  | c :: cs, p :: ps => c == p && listStartsWith cs ps

/-- Whether the pattern occurs as a contiguous run somewhere in the list. -/
def listContainsSub (pat : List Char) : List Char → Bool
  | [] => listStartsWith [] pat
  | c :: rest => listStartsWith (c :: rest) pat || listContainsSub pat rest

/-- Whether the pattern occurs somewhere in s. -/
def strContains (s pat : String) : Bool := listContainsSub pat.data s.data

/-- An observer record with the three callbacks the code wires through.
Callbacks are abstract values here: the dispatcher only stores and selects
them, never inspects them. -/
structure Sink (α : Type) where
  next : α
  complete : α
  error : α
deriving DecidableEq, Repr

/-- The two calling conventions subscribe accepts: a single observer object
(typeof object) in the first argument, or three positional callbacks
(typeof function). -/
inductive SubscribeArgs (α : Type) where
  | object (sink : Sink α)
  | positional (next : α) (complete : α) (error : α)
deriving DecidableEq, Repr

/-- src/App.js lines 24 to 33: when the first argument is an object it is the
sink already; otherwise the three positional arguments are packed into a sink
record. -/
def getSinkFromArgs {α : Type} : SubscribeArgs α → Sink α
  | .object s => s
  | .positional n c e => ⟨n, c, e⟩

/-- One event arriving on the duplex channel for a subscription. -/
inductive ChannelEvent where
  | message (result : String)
  | completed
  | failure (f : ChannelFailure)
deriving DecidableEq, Repr

/-- A call delivered to one of the observer callbacks: which callback value
is invoked, and with what argument. -/
inductive DeliveredCall (α : Type) where
  | nextCall (cb : α) (result : String)
  | completeCall (cb : α)
  | errorCall (cb : α) (e : JSError)
deriving DecidableEq, Repr

/-- src/App.js lines 42 to 61: the inner sink handed to the channel client
forwards messages to next, completion to complete, and failures to error
after normalization. -/
def deliverEvent {α : Type} (sink : Sink α) : ChannelEvent → DeliveredCall α
  | .message r => .nextCall sink.next r
  | .completed => .completeCall sink.complete
  | .failure f => .errorCall sink.error (normalizeChannelError f)

/-- The span containment test of src/App.js lines 144 to 152: a definition
matches when it has a loc and that loc contains the position; a definition
without loc is skipped (the callback logs and returns false). -/
def definitionContains (position : Loc) (d : Definition) : Bool :=
  match locOf d with
  | none => false
  | some l => decide (l.start ≤ position.start) && decide (position.stop ≤ l.stop)

/-- src/App.js line 144: Array.prototype.find over the definitions, i.e. the
first definition, in document order, containing the position. -/
def findDefinitionAt (defs : Document) (position : Loc) : Option Definition :=
  defs.find? (definitionContains position)

/-- src/App.js line 159: the kind part of the identifier. -/
def operationKindOf : Definition → String
  | .operationDefinition op _ _ => operationTypeString op
  | .fragmentDefinition _ _ => "fragment"
  | .otherDefinition _ => "unknown"

/-- src/App.js line 161: the name part of the identifier. -/
def operationNameOf : Definition → String
  | .operationDefinition _ nm _ => match nm with | some n => n | none => "unknown"
  | .fragmentDefinition nm _ => match nm with | some n => n | none => "unknown"
  | .otherDefinition _ => "unknown"

/-- The identifier handed to the UI collaborator: kind and name. -/
def identifierOf (d : Definition) : String × String :=
  (operationKindOf d, operationNameOf d)

/-- src/App.js line 163: the CSS selector built from the identifier. -/
def selectorOf (d : Definition) : String :=
  ".graphiql-explorer-root #" ++ operationKindOf d ++ "-" ++ operationNameOf d

/-- JS truthiness of the value returned by the library parse call: parse
returns a DocumentNode, which is an object, and every JS object is truthy
(parse never returns null or undefined; failure is an exception). -/
def documentTruthy (_doc : Document) : Bool := true

/-- The observable outcomes of the resolver handler. -/
inductive ResolverOutcome where
  | parseException (e : ParseErr)
  | parseNullBranch
  | definitionMiss
  | scrolled (kind : String) (name : String)
deriving DecidableEq, Repr

/-- src/App.js lines 126 to 167: parse the current query (a thrown parse
error propagates), take the logging branch if the parsed document were falsy,
otherwise find the definition containing the position and hand its identifier
to the UI; a miss logs and returns. -/
def handleInspectOperation (parseFn : String → Except ParseErr Document)
    (query : String) (position : Loc) : ResolverOutcome :=
  match parseFn query with
  | .error e => .parseException e
  | .ok parsedQuery =>
    if documentTruthy parsedQuery then
      match findDefinitionAt parsedQuery position with
      | none => .definitionMiss
      | some d => .scrolled (operationKindOf d) (operationNameOf d)
    else .parseNullBranch

/-- A JSON value as JSON.parse produces it. Numbers are kept as their source
lexeme: this development never does float arithmetic, and the claims only
compare parsed structures. -/
inductive JSValue where
  | null
  | bool (b : Bool)
  | number (lexeme : String)
  | str (s : String)
  | arr (elems : List JSValue)
  | obj (fields : List (String × JSValue))

/-- JSON whitespace. -/
def jsonWs (c : Char) : Bool :=
  c == ' ' || c == '\t' || c == '\n' || c == '\r'

/-- Translation of a single-character string escape. -/
def escTrans (c : Char) : Option Char :=
  if c = '"' then some '"'
  else if c = '\\' then some '\\'
  else if c = '/' then some '/'
  else if c = 'b' then some (Char.ofNat 8)
  else if c = 'f' then some (Char.ofNat 12)
  else if c = 'n' then some '\n'
  else if c = 'r' then some '\r'
  else if c = 't' then some '\t'
  else none

/-- Value of a hexadecimal digit. -/
def hexVal (c : Char) : Option Nat :=
  if '0'.toNat ≤ c.toNat ∧ c.toNat ≤ '9'.toNat then some (c.toNat - '0'.toNat)
  else if 'a'.toNat ≤ c.toNat ∧ c.toNat ≤ 'f'.toNat then some (c.toNat - 'a'.toNat + 10)
  else if 'A'.toNat ≤ c.toNat ∧ c.toNat ≤ 'F'.toNat then some (c.toNat - 'A'.toNat + 10)
  else none

/-- Scan the body of a string literal after its opening quote. The Bool flags
that the previous character was a backslash, so the current one is an escape
code; unicode escapes consume four further hex digits. Returns the decoded
characters and the input after the closing quote. -/
def scanString : List Char → Bool → Option (List Char × List Char)
  | [], _ => none
  | c :: rest, true =>
    if c = 'u' then
      match rest with
      | h1 :: h2 :: h3 :: h4 :: r =>
        match hexVal h1, hexVal h2, hexVal h3, hexVal h4 with
        | some a, some b, some d, some e =>
          match scanString r false with
          | some (s, r2) => some (Char.ofNat (((a * 16 + b) * 16 + d) * 16 + e) :: s, r2)
          | none => none
        | _, _, _, _ => none
      | _ => none
    else
      match escTrans c with
      | some e =>
        match scanString rest false with
        | some (s, r2) => some (e :: s, r2)
        | none => none
      | none => none
  | c :: rest, false =>
    if c = '"' then some ([], rest)
    else if c = '\\' then scanString rest true
    else
      match scanString rest false with
      | some (s, r2) => some (c :: s, r2)
      | none => none

/-- Longest digit run at the front of the input. -/
def spanDigits : List Char → List Char × List Char
  | [] => ([], [])
  | c :: cs =>
    if c.isDigit then
      match spanDigits cs with
      | (ds, r) => (c :: ds, r)
    else ([], c :: cs)

/-- Optional fractional part: a dot must be followed by at least one digit. -/
def scanFrac : List Char → Option (List Char × List Char)
  | '.' :: r =>
    match spanDigits r with
    | ([], _) => none
    | (ds, r2) => some ('.' :: ds, r2)
  | cs => some ([], cs)

/-- Optional exponent part: e or E, optional sign, at least one digit. -/
def scanExp : List Char → Option (List Char × List Char)
  | [] => some ([], [])
  | c :: r =>
    if c == 'e' || c == 'E' then
      let sr : List Char × List Char :=
        match r with
        | s :: r2 => if s == '+' || s == '-' then ([s], r2) else ([], s :: r2)
        | [] => ([], [])
      match spanDigits sr.2 with
      | ([], _) => none
      | (ds, r3) => some (c :: (sr.1 ++ ds), r3)
    else some ([], c :: r)

/-- Scan a number lexeme: optional minus, digits, optional fraction, optional
exponent (the leading-zero restriction of strict JSON is not enforced; none
of the claims depends on it). -/
def scanNumber (cs : List Char) : Option (String × List Char) :=
  let sc : List Char × List Char :=
    match cs with
    | '-' :: r => (['-'], r)
    | _ => ([], cs)
  match spanDigits sc.2 with
  | ([], _) => none
  | (ip, cs2) =>
    match scanFrac cs2 with
    | none => none
    | some (fp, cs3) =>
      match scanExp cs3 with
      | none => none
      | some (ep, cs4) => some (String.mk (sc.1 ++ ip ++ fp ++ ep), cs4)

/-- Tokens of the JSON grammar. -/
inductive JTok where
  | lbrace
  | rbrace
  | lbrack
  | rbrack
  | colon
  | comma
  | jstr (s : String)
  | jnum (lexeme : String)
  | jtrue
  | jfalse
  | jnull
deriving DecidableEq, Repr

/-- Tokenizer; the fuel decreases on every call and every call consumes at
least one character, so an initial fuel of length plus one never runs out. -/
def tokenizeAux : Nat → List Char → Option (List JTok)
  | 0, _ => none
  | _ + 1, [] => some []
  | fuel + 1, c :: cs =>
    if jsonWs c then tokenizeAux fuel cs
    else if c = '\x7b' then (tokenizeAux fuel cs).map (fun ts => JTok.lbrace :: ts)
    else if c = '\x7d' then (tokenizeAux fuel cs).map (fun ts => JTok.rbrace :: ts)
    else if c = '[' then (tokenizeAux fuel cs).map (fun ts => JTok.lbrack :: ts)
    else if c = ']' then (tokenizeAux fuel cs).map (fun ts => JTok.rbrack :: ts)
    else if c = ':' then (tokenizeAux fuel cs).map (fun ts => JTok.colon :: ts)
    else if c = ',' then (tokenizeAux fuel cs).map (fun ts => JTok.comma :: ts)
    else if c = '"' then
      match scanString cs false with
      | some (body, rest) => (tokenizeAux fuel rest).map (fun ts => JTok.jstr (String.mk body) :: ts)
      | none => none
    else if c = 't' then
      match cs with
      | 'r' :: 'u' :: 'e' :: rest => (tokenizeAux fuel rest).map (fun ts => JTok.jtrue :: ts)
      | _ => none
    else if c = 'f' then
      match cs with
      | 'a' :: 'l' :: 's' :: 'e' :: rest => (tokenizeAux fuel rest).map (fun ts => JTok.jfalse :: ts)
      | _ => none
    else if c = 'n' then
      match cs with
      | 'u' :: 'l' :: 'l' :: rest => (tokenizeAux fuel rest).map (fun ts => JTok.jnull :: ts)
      | _ => none
    else if c = '-' ∨ c.isDigit then
      match scanNumber (c :: cs) with
      | some (lex, rest) => (tokenizeAux fuel rest).map (fun ts => JTok.jnum lex :: ts)
      | none => none
    else none

/-- A partially built container on the parse stack: an array collecting its
elements in reverse, or an object collecting its pairs in reverse, with the
key whose value is pending, when there is one. -/
inductive PFrame where
  | arrF (acc : List JSValue)
  | objF (acc : List (String × JSValue)) (pending : Option String)

/-- Parser state between tokens: expecting a value (fresh right after an
opening bracket, so a closing bracket is allowed), expecting an object key
(fresh right after an opening brace), expecting the colon after a key,
expecting a comma or a closing bracket after a value, or done. -/
inductive PMode where
  | mval (fresh : Bool)
  | mkey (fresh : Bool)
  | mcolon
  | mafter
  | mdone (v : JSValue)

/-- Attach a completed value to the enclosing container, or finish when the
stack is empty. -/
def attachStep (v : JSValue) : List PFrame → Option (PMode × List PFrame)
  | [] => some (.mdone v, [])
  | .arrF acc :: s => some (.mafter, .arrF (v :: acc) :: s)
  | .objF acc (some k) :: s => some (.mafter, .objF ((k, v) :: acc) none :: s)
  | .objF _ none :: _ => none

/-- The literal tokens that are values by themselves. -/
def tokValue : JTok → Option JSValue
  | .jnull => some .null
  | .jtrue => some (.bool true)
  | .jfalse => some (.bool false)
  | .jstr s => some (.str s)
  | .jnum l => some (.number l)
  | _ => none

/-- Shift-reduce evaluation of the token stream; structural on the tokens,
consuming exactly one per step. Succeeds only when the whole stream encodes
one value with nothing trailing, as JSON.parse requires. -/
def runP : List JTok → PMode → List PFrame → Option JSValue
  | [], .mdone v, [] => some v
  | [], _, _ => none
  | _ :: _, .mdone _, _ => none
  | t :: ts, .mval fresh, stack =>
    match tokValue t with
    | some v =>
      match attachStep v stack with
      | some (m, st) => runP ts m st
      | none => none
    | none =>
      match t with
      | .lbrack => runP ts (.mval true) (.arrF [] :: stack)
      | .lbrace => runP ts (.mkey true) (.objF [] none :: stack)
      | .rbrack =>
        if fresh then
          match stack with
          | .arrF [] :: s2 =>
            match attachStep (.arr []) s2 with
            | some (m, st) => runP ts m st
            | none => none
          | _ => none
        else none
      | _ => none
  | t :: ts, .mkey fresh, stack =>
    match t, stack with
    | .jstr k, .objF acc none :: s2 => runP ts .mcolon (.objF acc (some k) :: s2)
    | .rbrace, .objF [] none :: s2 =>
      if fresh then
        match attachStep (.obj []) s2 with
        | some (m, st) => runP ts m st
        | none => none
      else none
    | _, _ => none
  | t :: ts, .mcolon, stack =>
    match t with
    | .colon => runP ts (.mval false) stack
    | _ => none
  | t :: ts, .mafter, stack =>
    match t, stack with
    | .comma, .arrF acc :: s2 => runP ts (.mval false) (.arrF acc :: s2)
    | .rbrack, .arrF acc :: s2 =>
      match attachStep (.arr acc.reverse) s2 with
      | some (m, st) => runP ts m st
      | none => none
    | .comma, .objF acc none :: s2 => runP ts (.mkey false) (.objF acc none :: s2)
    | .rbrace, .objF acc none :: s2 =>
      match attachStep (.obj acc.reverse) s2 with
      | some (m, st) => runP ts m st
      | none => none
    | _, _ => none

/-- Modelled JSON.parse: tokenize, then evaluate; any failure at either stage
is the exception JSON.parse would throw, rendered as none. -/
def jsonParse (s : String) : Option JSValue :=
  match tokenizeAux (s.length + 1) s.data with
  | some toks => runP toks (.mval false) []
  | none => none

/-- A stateless dispatch result: the structured parse of the body, or the raw
body text when the parse failed. The constructor tag is how a caller tells the
two apart. -/
inductive StatelessResult where
  | parsed (v : JSValue)
  | raw (text : String)

/-- src/App.js lines 77 to 83: the final then-handler of the stateless path.
JSON.parse inside try returns the structured value; on exception the raw body
text is returned instead. -/
def handleResponseBody (responseBody : String) : StatelessResult :=
  match jsonParse responseBody with
  | some v => .parsed v
  | none => .raw responseBody

/-- Fixture: a document with two named query operations at the spans used by
the spec examples, 0 to 20 and 21 to 40. -/
def docTwo : Document :=
  [.operationDefinition .query (some "A") (some ⟨0, 20⟩),
   .operationDefinition .query (some "B") (some ⟨21, 40⟩)]

/-- Fixture: a parse function returning docTwo for every query text. -/
def parseTwo : String → Except ParseErr Document := fun _ => .ok docTwo

/-- Fixture: a request with no operation name. -/
def paramsTwo : FetcherParams := ⟨"query A and query B", none, none⟩

/-- Fixture: a parse function that always throws. -/
def parseFail : String → Except ParseErr Document :=
  fun _ => .error (.syntaxError "Syntax Error")

/-- Fixture: a document containing exactly one operation, a named
subscription. -/
def docOne : Document := [.operationDefinition .subscription (some "S") (some ⟨0, 30⟩)]

/-- Fixture: a parse function returning docOne for every query text. -/
def parseOne : String → Except ParseErr Document := fun _ => .ok docOne

theorem getOpAux_none_of_opdef_some (o : OperationDef) :
    ∀ l : List Definition, 1 ≤ (opDefs l).length →
      getOperationASTAux none l (some o) = none := by
  intro l
  induction l with
  | nil => intro h; simp [opDefs] at h
  | cons d rest ih =>
    cases d with
    | operationDefinition op nm lc => intro _; simp [getOperationASTAux]
    | fragmentDefinition nm lc => intro h; simpa [getOperationASTAux, opDefs] using ih (by simpa [opDefs] using h)
    | otherDefinition lc => intro h; simpa [getOperationASTAux, opDefs] using ih (by simpa [opDefs] using h)

theorem getOpAST_two_ops_none :
    ∀ l : Document, 2 ≤ (opDefs l).length → getOperationASTAux none l none = none := by
  intro l
  induction l with
  | nil => intro h; simp [opDefs] at h
  | cons d rest ih =>
    cases d with
    | operationDefinition op nm lc =>
      intro h
      have h1 : 1 ≤ (opDefs rest).length := by
        simp [opDefs] at h
        omega
      simpa [getOperationASTAux] using getOpAux_none_of_opdef_some ⟨op, nm, lc⟩ rest h1
    | fragmentDefinition nm lc =>
      intro h
      simpa [getOperationASTAux] using ih (by simpa [opDefs] using h)
    | otherDefinition lc =>
      intro h
      simpa [getOperationASTAux] using ih (by simpa [opDefs] using h)

theorem getOpAux_acc_of_no_ops :
    ∀ (l : List Definition) (opName : Option String) (acc : Option OperationDef),
      opDefs l = [] → getOperationASTAux opName l acc = acc := by
  intro l
  induction l with
  | nil => intro opName acc _; cases opName <;> simp [getOperationASTAux]
  | cons d rest ih =>
    intro opName acc h
    cases d with
    | operationDefinition op nm lc => simp [opDefs] at h
    | fragmentDefinition nm lc =>
      cases opName <;> simpa [getOperationASTAux] using ih _ acc (by simpa [opDefs] using h)
    | otherDefinition lc =>
      cases opName <;> simpa [getOperationASTAux] using ih _ acc (by simpa [opDefs] using h)

theorem getOpAST_single_none :
    ∀ (l : Document) (o : OperationDef), opDefs l = [o] →
      getOperationASTAux none l none = some o := by
  intro l
  induction l with
  | nil => intro o h; simp [opDefs] at h
  | cons d rest ih =>
    intro o h
    cases d with
    | operationDefinition op nm lc =>
      simp [opDefs] at h
      obtain ⟨h1, h2⟩ := h
      subst h1
      simpa [getOperationASTAux] using getOpAux_acc_of_no_ops rest none _ h2
    | fragmentDefinition nm lc =>
      simpa [getOperationASTAux] using ih o (by simpa [opDefs] using h)
    | otherDefinition lc =>
      simpa [getOperationASTAux] using ih o (by simpa [opDefs] using h)

theorem getOpAST_single_some :
    ∀ (l : Document) (o : OperationDef) (n : String) (acc : Option OperationDef),
      opDefs l = [o] → o.name = some n →
      getOperationASTAux (some n) l acc = some o := by
  intro l
  induction l with
  | nil => intro o n acc h _; simp [opDefs] at h
  | cons d rest ih =>
    intro o n acc h hn
    cases d with
    | operationDefinition op nm lc =>
      simp [opDefs] at h
      obtain ⟨h1, h2⟩ := h
      subst h1
      simp at hn
      simp [getOperationASTAux, hn]
    | fragmentDefinition nm lc =>
      simpa [getOperationASTAux] using ih o n acc (by simpa [opDefs] using h) hn
    | otherDefinition lc =>
      simpa [getOperationASTAux] using ih o n acc (by simpa [opDefs] using h) hn

/-- C1 counterexample: a document with two operations and a null operation
name does not make the fetcher fail; it executes the request on the stateless
transport, refuting the claimed AmbiguousOperationError failure. -/
theorem ambiguous_claim_fails_on_code :
    (opDefs docTwo).length = 2 ∧ paramsTwo.operationName = none ∧
    fetcher parseTwo paramsTwo = FetchOutcome.stateless paramsTwo :=
  ⟨rfl, rfl, rfl⟩

/-- C1 amended: for every request whose document has two or more operation
definitions and whose operationName is null, the operation resolution comes
back null, so the fetcher classifies the request as non-subscription and
executes it on the stateless transport instead of failing. -/
theorem ambiguous_request_goes_stateless (parseFn : String → Except ParseErr Document)
    (params : FetcherParams) (doc : Document)
    (hp : parseFn params.query = Except.ok doc)
    (hn : params.operationName = none)
    (h2 : 2 ≤ (opDefs doc).length) :
    getOperationAST doc none = none ∧
    fetcher parseFn params = FetchOutcome.stateless params := by
  have hg : getOperationASTAux none doc none = none := getOpAST_two_ops_none doc h2
  refine ⟨hg, ?_⟩
  simp [fetcher, isSubscription, hp, hn, resolvesSubscription, getOperationAST, hg]

theorem ambiguous_request_goes_stateless_witness :
    getOperationAST docTwo none = none ∧
    fetcher parseTwo paramsTwo = FetchOutcome.stateless paramsTwo :=
  ambiguous_request_goes_stateless parseTwo paramsTwo docTwo rfl rfl (by decide)

/-- C2: evaluating the close-event normalization of src/App.js line 52 at a
closure with code 1006 and reason abnormal. Because the JS plus operator
binds tighter than the conditional, the Error message is just the colon
segment: it contains the reason but not the code 1006, and an empty reason
still yields a colon segment, contradicting the claimed message shape. -/
theorem closeEvent_message_drops_code :
    normalizeChannelError (ChannelFailure.closeEvent 1006 "abnormal") = ⟨": abnormal"⟩ ∧
    strContains ": abnormal" "abnormal" = true ∧
    strContains ": abnormal" "1006" = false ∧
    normalizeChannelError (ChannelFailure.closeEvent 1006 "") = ⟨": "⟩ ∧
    strContains ": " "1006" = false :=
  ⟨rfl, rfl, rfl, rfl, rfl⟩

/-- C3: the stateless path parses the body as JSON when possible and resolves
with the raw body text when the parse fails; in particular the two bodies the
spec names behave as claimed. -/
theorem statelessBody_parse_or_raw :
    (∀ (body : String) (v : JSValue),
      jsonParse body = some v → handleResponseBody body = StatelessResult.parsed v) ∧
    (∀ body : String,
      jsonParse body = none → handleResponseBody body = StatelessResult.raw body) ∧
    handleResponseBody "\x7b\"data\":\x7b\"x\":1\x7d\x7d" =
      StatelessResult.parsed (JSValue.obj [("data", JSValue.obj [("x", JSValue.number "1")])]) ∧
    handleResponseBody "not json" = StatelessResult.raw "not json" := by
  refine ⟨?_, ?_, rfl, rfl⟩
  · intro body v h
    simp [handleResponseBody, h]
  · intro body h
    simp [handleResponseBody, h]

theorem statelessBody_parse_or_raw_witness :
    handleResponseBody "true" = StatelessResult.parsed (JSValue.bool true) :=
  statelessBody_parse_or_raw.1 "true" (JSValue.bool true) rfl

/-- C4: the resolver picks the first definition, in document order, whose
span fully contains the position; definitions without a span never match;
containment is the test start below position.start and position.stop below
stop; the two spec examples, spans 0 to 20 and 21 to 40 with positions 25 to
30 and 50 to 55, give the second operation and a miss. -/
theorem resolver_first_containing_definition :
    (∀ (defs : Document) (pos : Loc) (d : Definition),
      findDefinitionAt defs pos = some d →
        ∃ pre post, defs = pre ++ d :: post ∧ definitionContains pos d = true ∧
          ∀ d2 ∈ pre, definitionContains pos d2 = false) ∧
    (∀ (defs : Document) (pos : Loc),
      findDefinitionAt defs pos = none ↔ ∀ d ∈ defs, definitionContains pos d = false) ∧
    (∀ (pos : Loc) (d : Definition), locOf d = none → definitionContains pos d = false) ∧
    (∀ (pos : Loc) (d : Definition) (l : Loc), locOf d = some l →
      definitionContains pos d =
        (decide (l.start ≤ pos.start) && decide (pos.stop ≤ l.stop))) ∧
    findDefinitionAt docTwo ⟨25, 30⟩ =
      some (Definition.operationDefinition .query (some "B") (some ⟨21, 40⟩)) ∧
    findDefinitionAt docTwo ⟨50, 55⟩ = none := by
  refine ⟨?_, ?_, ?_, ?_, rfl, rfl⟩
  · intro defs pos d h
    rw [findDefinitionAt, List.find?_eq_some] at h
    obtain ⟨hd, pre, post, rfl, hpre⟩ := h
    exact ⟨pre, post, rfl, hd, fun d2 hd2 => by simpa using hpre d2 hd2⟩
  · intro defs pos
    rw [findDefinitionAt, List.find?_eq_none]
    constructor
    · intro h d hd
      simpa using h d hd
    · intro h d hd
      simp [h d hd]
  · intro pos d h
    simp [definitionContains, h]
  · intro pos d l h
    simp [definitionContains, h]

theorem resolver_first_containing_definition_witness :
    definitionContains ⟨0, 0⟩ (Definition.otherDefinition none) = false :=
  resolver_first_containing_definition.2.2.1 ⟨0, 0⟩ (Definition.otherDefinition none) rfl

/-- C5: on a document whose only operation definition is named n, resolution
with a null operationName and with the explicit name n agree, so the
subscription test and the transport the fetcher picks agree as well. -/
theorem single_operation_name_irrelevant (doc : Document) (o : OperationDef) (n : String)
    (h1 : opDefs doc = [o]) (h2 : o.name = some n) :
    getOperationAST doc none = some o ∧
    getOperationAST doc (some n) = some o ∧
    resolvesSubscription doc none = resolvesSubscription doc (some n) ∧
    (∀ (parseFn : String → Except ParseErr Document) (q : String) (v : Option String),
      parseFn q = Except.ok doc →
      transportClassOf (fetcher parseFn ⟨q, none, v⟩) =
        transportClassOf (fetcher parseFn ⟨q, some n, v⟩)) := by
  have hn : getOperationAST doc none = some o := getOpAST_single_none doc o h1
  have hs : getOperationAST doc (some n) = some o := getOpAST_single_some doc o n none h1 h2
  have hr : resolvesSubscription doc none = resolvesSubscription doc (some n) := by
    simp [resolvesSubscription, hn, hs]
  refine ⟨hn, hs, hr, ?_⟩
  intro parseFn q v hp
  have e1 : isSubscription parseFn ⟨q, none, v⟩ = .ok (resolvesSubscription doc none) := by
    simp [isSubscription, hp]
  have e2 : isSubscription parseFn ⟨q, some n, v⟩ = .ok (resolvesSubscription doc (some n)) := by
    simp [isSubscription, hp]
  simp only [fetcher, e1, e2, hr]
  cases resolvesSubscription doc (some n) <;> rfl

theorem single_operation_name_irrelevant_witness :
    getOperationAST docOne none = some ⟨.subscription, some "S", some ⟨0, 30⟩⟩ ∧
    transportClassOf (fetcher parseOne ⟨"subscription S", none, none⟩) =
      transportClassOf (fetcher parseOne ⟨"subscription S", some "S", none⟩) :=
  ⟨(single_operation_name_irrelevant docOne ⟨.subscription, some "S", some ⟨0, 30⟩⟩ "S"
      rfl rfl).1,
   (single_operation_name_irrelevant docOne ⟨.subscription, some "S", some ⟨0, 30⟩⟩ "S"
      rfl rfl).2.2.2 parseOne "subscription S" none rfl⟩

/-- C6: the positional and the object calling conventions of subscribe
normalize to the same sink record, and every channel event is delivered to
the same callback with the same argument under either convention. -/
theorem observer_forms_equivalent {α : Type} (n c e : α) :
    getSinkFromArgs (SubscribeArgs.positional n c e) =
      getSinkFromArgs (SubscribeArgs.object ⟨n, c, e⟩) ∧
    getSinkFromArgs (SubscribeArgs.positional n c e) = ⟨n, c, e⟩ ∧
    ∀ ev : ChannelEvent,
      deliverEvent (getSinkFromArgs (SubscribeArgs.positional n c e)) ev =
        deliverEvent (getSinkFromArgs (SubscribeArgs.object ⟨n, c, e⟩)) ev :=
  ⟨rfl, rfl, fun _ => rfl⟩

/-- C7: a native error value is forwarded to the error callback unchanged,
and a sequence of server errors becomes a single error whose message joins
their messages, in order, with a comma separator. -/
theorem channel_error_native_and_multi :
    (∀ e : JSError, normalizeChannelError (ChannelFailure.native e) = e) ∧
    (∀ errors : List ServerError,
      normalizeChannelError (ChannelFailure.multi errors) =
        ⟨String.intercalate ", " (errors.map ServerError.message)⟩) :=
  ⟨fun _ => rfl, fun _ => rfl⟩

/-- C8: when the document text fails to parse, the fetcher rethrows the parse
error and neither issues a stateless request nor registers a subscription. -/
theorem parse_failure_no_transport (parseFn : String → Except ParseErr Document)
    (params : FetcherParams) (e : ParseErr)
    (h : parseFn params.query = Except.error e) :
    fetcher parseFn params = FetchOutcome.thrown e ∧
    (∀ p, fetcher parseFn params ≠ FetchOutcome.stateless p) ∧
    (∀ p, fetcher parseFn params ≠ FetchOutcome.subscription p) := by
  have hf : fetcher parseFn params = FetchOutcome.thrown e := by
    simp [fetcher, isSubscription, h]
  refine ⟨hf, fun p hc => ?_, fun p hc => ?_⟩
  · rw [hf] at hc
    exact FetchOutcome.noConfusion hc
  · rw [hf] at hc
    exact FetchOutcome.noConfusion hc

theorem parse_failure_no_transport_witness :
    fetcher parseFail ⟨"nope", none, none⟩ =
      FetchOutcome.thrown (ParseErr.syntaxError "Syntax Error") :=
  (parse_failure_no_transport parseFail ⟨"nope", none, none⟩
    (ParseErr.syntaxError "Syntax Error") rfl).1

/-- C9: the identifier handed to the UI is the operation type with the name
for an operation definition and the word fragment with the name for a
fragment definition, the name defaulting to unknown when absent. -/
theorem identifier_construction :
    (∀ (op : OperationType) (nm : Option String) (lc : Option Loc),
      identifierOf (Definition.operationDefinition op nm lc) =
        (operationTypeString op, nm.getD "unknown")) ∧
    (∀ (nm : Option String) (lc : Option Loc),
      identifierOf (Definition.fragmentDefinition nm lc) =
        ("fragment", nm.getD "unknown")) := by
  constructor
  · intro op nm lc
    cases nm <;> rfl
  · intro nm lc
    cases nm <;> rfl

/-- C10: the branch of the resolver that would log a parse failure and return
null is unreachable, because the parse either throws (and the exception
propagates out of the handler) or returns a document node, which is truthy;
so the handler never produces the parseNullBranch outcome. -/
theorem parse_null_branch_unreachable (parseFn : String → Except ParseErr Document)
    (query : String) (position : Loc) :
    handleInspectOperation parseFn query position ≠ ResolverOutcome.parseNullBranch ∧
    (∀ e, parseFn query = Except.error e →
      handleInspectOperation parseFn query position = ResolverOutcome.parseException e) := by
  constructor
  · cases hq : parseFn query with
    | error e2 => simp [handleInspectOperation, hq]
    | ok d =>
      simp only [handleInspectOperation, hq, documentTruthy, if_true]
      cases h2 : findDefinitionAt d position <;> simp [h2]
  · intro e he
    simp [handleInspectOperation, he]

theorem parse_null_branch_unreachable_witness :
    handleInspectOperation parseFail "q" ⟨0, 0⟩ ≠ ResolverOutcome.parseNullBranch ∧
    handleInspectOperation parseFail "q" ⟨0, 0⟩ =
      ResolverOutcome.parseException (ParseErr.syntaxError "Syntax Error") :=
  ⟨(parse_null_branch_unreachable parseFail "q" ⟨0, 0⟩).1,
   (parse_null_branch_unreachable parseFail "q" ⟨0, 0⟩).2
      (ParseErr.syntaxError "Syntax Error") rfl⟩

end Explorer
